import Mathlib

/-!
Shallow embedding of the Cauchy distribution from `src/distribution/cauchy.rs`
of the `probability` library.

Modelling conventions:
* `f64` values are modelled as real numbers; the transcendental functions
  (`atan`, `tan`, the constants `PI` and `FRAC_1_PI`) become `Real.arctan`,
  `Real.tan`, `π` and `π⁻¹`.
* a `should!` assertion failure (the crate's loud precondition check, a
  panic-class failure) is modelled by the function returning `none`; the
  successful path returns `some`.
* the IEEE infinities `NEG_INFINITY` / `INFINITY` returned by `inverse`
  are modelled by `⊥` / `⊤` of `EReal`; a finite result is the coercion
  of a real number into `EReal`.
-/

open Real Filter

namespace Probability

/-- Modelled from the spec: the crate's `should!` precondition macro is defined
outside the snapshot; per the spec, a violated precondition "fails loudly" (an
abort/panic-class failure) rather than silently continuing.  A computation
guarded by `should!(cond)` is therefore modelled as `none` when `cond` is
false and `some` of the computed result when it holds. -/
noncomputable def should (cond : Prop) [Decidable cond] {α : Type} (result : α) : Option α :=
  if cond then some result else none

/-- The struct `Cauchy` of `cauchy.rs`: location `x_0` and scale `gamma`. -/
structure Cauchy where
  x_0 : ℝ
  gamma : ℝ

namespace Cauchy

/-- `Cauchy::new(x_0, gamma)` from `cauchy.rs`: `should!(gamma > 0.0)` and then
build the value. -/
noncomputable def new (x_0 gamma : ℝ) : Option Cauchy :=
  should (gamma > 0) ⟨x_0, gamma⟩

/-- `Cauchy::density` from `cauchy.rs`:
`gamma / (PI * (gamma * gamma + deviation * deviation))` with
`deviation = x - x_0`. -/
noncomputable def density (c : Cauchy) (x : ℝ) : ℝ :=
  let deviation := x - c.x_0
  c.gamma / (π * (c.gamma * c.gamma + deviation * deviation))

/-- `Cauchy::distribution` from `cauchy.rs`:
`FRAC_1_PI * ((x - x_0) / gamma).atan() + 0.5`. -/
noncomputable def distribution (c : Cauchy) (x : ℝ) : ℝ :=
  π⁻¹ * Real.arctan ((x - c.x_0) / c.gamma) + 0.5

/-- `Cauchy::inverse` from `cauchy.rs`: `should!((0.0..=1.0).contains(&p))`,
then the explicit branch `p <= 0.0 ↦ NEG_INFINITY`, then `1.0 <= p ↦ INFINITY`,
and otherwise the finite formula `x_0 + gamma * (PI * (p - 0.5)).tan()`. -/
noncomputable def inverse (c : Cauchy) (p : ℝ) : Option EReal :=
  should (0 ≤ p ∧ p ≤ 1)
    (if p ≤ 0 then ⊥
     else if 1 ≤ p then ⊤
     else ((c.x_0 + c.gamma * Real.tan (π * (p - 0.5)) : ℝ) : EReal))

/-- `Cauchy::median` from `cauchy.rs`: returns `x_0`. -/
def median (c : Cauchy) : ℝ := c.x_0

/-- `Cauchy::modes` from `cauchy.rs`: returns `vec![x_0]`. -/
def modes (c : Cauchy) : List ℝ := [c.x_0]

end Cauchy

/-- The `Gaussian` distribution value referenced by `Cauchy::sample`.
Modelled from the spec: the Gaussian module is not part of the snapshot
(only `distributions/mod.rs` re-exports it); per the spec it is an immutable
value holding a mean and a deviation. -/
structure Gaussian where
  mu : ℝ
  sigma : ℝ

/-- Modelled from the spec: `Gaussian::new(mu, sigma)` records the mean and
the deviation; `Cauchy::sample` constructs it with mean `0.0` and
deviation `1.0`. -/
def Gaussian.new (mu sigma : ℝ) : Gaussian := ⟨mu, sigma⟩

/-- The IEEE 754 machine epsilon of `f64` (`f64::EPSILON = 2⁻⁵²`), as a real
number. -/
noncomputable def f64Epsilon : ℝ := (2 : ℝ) ^ (-52 : ℤ)

/-- `Cauchy::sample` from `cauchy.rs`: construct a standard Gaussian
(`Gaussian::new(0.0, 1.0)`), draw `a` and then `b` from it through the
caller-supplied source, and return `x_0 + gamma * a / (b.abs() + EPSILON)`.
The Gaussian sampling algorithm lives outside the snapshot, so it is passed
in as `gsample`, a function taking a Gaussian value and a source state and
returning the drawn value together with the advanced source state. -/
noncomputable def Cauchy.sample {S : Type} (gsample : Gaussian → S → ℝ × S)
    (c : Cauchy) (s : S) : ℝ × S :=
  let gaussian := Gaussian.new 0 1
  let a := (gsample gaussian s).1
  let s1 := (gsample gaussian s).2
  let b := (gsample gaussian s1).1
  let s2 := (gsample gaussian s1).2
  (c.x_0 + c.gamma * a / (|b| + f64Epsilon), s2)

namespace Cauchy

/-- C1: for every Cauchy distribution with scale `gamma > 0`, `inverse 0` is
negative infinity and `inverse 1` is positive infinity; moreover neither value
can arise as the coercion of a finite real, so neither is produced by the
tan-based finite-formula branch. -/
theorem inverse_boundary (c : Cauchy) (h : 0 < c.gamma) :
    c.inverse 0 = some ⊥ ∧ c.inverse 1 = some ⊤ ∧
      (∀ x : ℝ, (⊥ : EReal) ≠ (x : EReal)) ∧ (∀ x : ℝ, (⊤ : EReal) ≠ (x : EReal)) := by
  refine ⟨?_, ?_, fun x => ?_, fun x => ?_⟩
  · unfold inverse should
    rw [if_pos ⟨le_refl 0, zero_le_one⟩, if_pos (le_refl 0)]
  · unfold inverse should
    rw [if_pos ⟨zero_le_one, le_refl 1⟩, if_neg (by norm_num), if_pos (le_refl 1)]
  · exact (EReal.coe_ne_bot x).symm
  · exact (EReal.coe_ne_top x).symm

/-- Concrete instantiation of `inverse_boundary` at `x_0 = 2`, `gamma = 8`. -/
theorem inverse_boundary_witness :
    (Cauchy.mk 2 8).inverse 0 = some ⊥ ∧ (Cauchy.mk 2 8).inverse 1 = some ⊤ :=
  ⟨(inverse_boundary ⟨2, 8⟩ (by norm_num)).1,
    (inverse_boundary ⟨2, 8⟩ (by norm_num)).2.1⟩

/-- C2: for every Cauchy distribution and every `p` with `p < 0` or `p > 1`,
`inverse p` fails (the `should!` range assertion trips), rather than clamping
or returning a value. -/
theorem inverse_out_of_range (c : Cauchy) (p : ℝ) (h : p < 0 ∨ 1 < p) :
    c.inverse p = none := by
  unfold inverse should
  rw [if_neg]
  rcases h with h | h
  · exact fun hc => absurd hc.1 (not_le.mpr h)
  · exact fun hc => absurd hc.2 (not_le.mpr h)

/-- Concrete instantiation of `inverse_out_of_range` at `p = 2`. -/
theorem inverse_out_of_range_witness : (Cauchy.mk 2 8).inverse 2 = none :=
  inverse_out_of_range ⟨2, 8⟩ 2 (Or.inr (by norm_num))

/-- C3: for every pair of raw parameters with `gamma ≤ 0`, `Cauchy::new` fails
(deterministically returns `none`), never yielding a value holding the invalid
scale. -/
theorem new_invalid (x_0 gamma : ℝ) (h : gamma ≤ 0) :
    Cauchy.new x_0 gamma = none ∧ ∀ c : Cauchy, Cauchy.new x_0 gamma ≠ some c := by
  have hn : Cauchy.new x_0 gamma = none := by
    unfold new should
    exact if_neg (not_lt.mpr h)
  exact ⟨hn, fun c hc => by rw [hn] at hc; exact Option.noConfusion hc⟩

/-- Concrete instantiation of `new_invalid` at `gamma = -1`. -/
theorem new_invalid_witness : Cauchy.new 2 (-1) = none :=
  (new_invalid 2 (-1) (by norm_num)).1

/-- C8: for every Cauchy distribution with `gamma > 0`, `median` returns `x_0`
exactly and `modes` returns the one-element sequence `[x_0]`. -/
theorem median_modes (c : Cauchy) (h : 0 < c.gamma) :
    c.median = c.x_0 ∧ c.modes = [c.x_0] ∧ c.modes.length = 1 :=
  ⟨rfl, rfl, rfl⟩

/-- Concrete instantiation of `median_modes` at `x_0 = 2`, `gamma = 8`. -/
theorem median_modes_witness :
    (Cauchy.mk 2 8).median = 2 ∧ (Cauchy.mk 2 8).modes = [2] :=
  ⟨(median_modes ⟨2, 8⟩ (by norm_num)).1, (median_modes ⟨2, 8⟩ (by norm_num)).2.1⟩

/-- C9: for every Cauchy distribution with `gamma > 0` and every offset `d`,
the density is symmetric about the location: `density (x_0 + d) = density
(x_0 - d)`. -/
theorem density_symmetric (c : Cauchy) (h : 0 < c.gamma) (d : ℝ) :
    c.density (c.x_0 + d) = c.density (c.x_0 - d) := by
  unfold density
  ring_nf

/-- Concrete instantiation of `density_symmetric` at `x_0 = 2`, `gamma = 8`,
`d = 1`. -/
theorem density_symmetric_witness :
    (Cauchy.mk 2 8).density (2 + 1) = (Cauchy.mk 2 8).density (2 - 1) :=
  density_symmetric ⟨2, 8⟩ (by norm_num) 1

/-- C10: for every Cauchy distribution with `gamma > 0` and every real `x`,
`density x` is non-negative, and the denominator `gamma² + (x - x_0)²` is
nonzero, so the division is well-defined. -/
theorem density_nonneg (c : Cauchy) (h : 0 < c.gamma) (x : ℝ) :
    0 ≤ c.density x ∧ c.gamma * c.gamma + (x - c.x_0) * (x - c.x_0) ≠ 0 := by
  have hden : 0 < c.gamma * c.gamma + (x - c.x_0) * (x - c.x_0) := by
    nlinarith [mul_self_nonneg (x - c.x_0)]
  constructor
  · unfold density
    exact div_nonneg h.le (mul_nonneg Real.pi_pos.le hden.le)
  · exact ne_of_gt hden

/-- Concrete instantiation of `density_nonneg` at `x_0 = 2`, `gamma = 8`,
`x = 37`. -/
theorem density_nonneg_witness : 0 ≤ (Cauchy.mk 2 8).density 37 :=
  (density_nonneg ⟨2, 8⟩ (by norm_num) 37).1

/-- C6: each call to `sample` draws `a` and then `b` from a standard Gaussian
(`Gaussian::new 0 1`) threaded through the same source (the second draw starts
from the state left by the first), returns
`x_0 + gamma * a / (|b| + f64Epsilon)` together with the twice-advanced state,
and the epsilon floor is positive, so the divisor `|b| + f64Epsilon` is never
zero. -/
theorem sample_spec {S : Type} (gsample : Gaussian → S → ℝ × S) (c : Cauchy) (s : S) :
    c.sample gsample s =
      (c.x_0 + c.gamma * (gsample (Gaussian.new 0 1) s).1 /
          (|(gsample (Gaussian.new 0 1) (gsample (Gaussian.new 0 1) s).2).1| + f64Epsilon),
        (gsample (Gaussian.new 0 1) (gsample (Gaussian.new 0 1) s).2).2) ∧
      0 < f64Epsilon ∧ ∀ b : ℝ, |b| + f64Epsilon ≠ 0 := by
  have heps : 0 < f64Epsilon := by
    unfold f64Epsilon
    positivity
  refine ⟨rfl, heps, fun b => ?_⟩
  have := abs_nonneg b
  positivity

/-- C7: for the Cauchy distribution with `x_0 = 2` and `gamma = 8`,
`density 2` is the peak value `1 / (π * 8)`, `distribution 2` equals `0.5`
exactly, and `inverse 0.5` is the finite value `2`. -/
theorem concrete_scenario :
    (Cauchy.mk 2 8).density 2 = 1 / (π * 8) ∧
    (Cauchy.mk 2 8).distribution 2 = 0.5 ∧
    (Cauchy.mk 2 8).inverse 0.5 = some ((2 : ℝ) : EReal) := by
  have hπ : (π : ℝ) ≠ 0 := Real.pi_ne_zero
  refine ⟨?_, ?_, ?_⟩
  · show (8 : ℝ) / (π * (8 * 8 + (2 - 2) * (2 - 2))) = 1 / (π * 8)
    rw [div_eq_div_iff (by positivity) (by positivity)]
    ring
  · show π⁻¹ * Real.arctan ((2 - 2) / 8) + 0.5 = 0.5
    norm_num
  · unfold inverse should
    rw [if_pos (by norm_num : (0:ℝ) ≤ 0.5 ∧ (0.5:ℝ) ≤ 1),
      if_neg (by norm_num : ¬((0.5:ℝ) ≤ 0)), if_neg (by norm_num : ¬((1:ℝ) ≤ 0.5))]
    norm_num

/-- C4: for every Cauchy distribution with `gamma > 0` and every `p` strictly
inside `(0, 1)`, `inverse p` is a finite value `x` and `distribution x = p`
exactly (so in particular within any floating tolerance). -/
theorem distribution_inverse_roundtrip (c : Cauchy) (hg : 0 < c.gamma) (p : ℝ)
    (h0 : 0 < p) (h1 : p < 1) :
    ∃ x : ℝ, c.inverse p = some (x : EReal) ∧ c.distribution x = p := by
  refine ⟨c.x_0 + c.gamma * Real.tan (π * (p - 0.5)), ?_, ?_⟩
  · unfold inverse should
    rw [if_pos ⟨h0.le, h1.le⟩, if_neg (not_le.mpr h0), if_neg (not_le.mpr h1)]
  · unfold distribution
    have hx : (c.x_0 + c.gamma * Real.tan (π * (p - 0.5)) - c.x_0) / c.gamma
        = Real.tan (π * (p - 0.5)) := by
      field_simp
    have hb1 : -(π / 2) < π * (p - 0.5) := by
      nlinarith [mul_pos Real.pi_pos h0]
    have hb2 : π * (p - 0.5) < π / 2 := by
      nlinarith [mul_pos Real.pi_pos (show (0:ℝ) < 1 - p by linarith)]
    rw [hx, Real.arctan_tan hb1 hb2]
    have hπ : (π : ℝ) ≠ 0 := Real.pi_ne_zero
    field_simp

/-- Concrete instantiation of `distribution_inverse_roundtrip` at `x_0 = 2`,
`gamma = 8`, `p = 0.5`. -/
theorem distribution_inverse_roundtrip_witness :
    ∃ x : ℝ, (Cauchy.mk 2 8).inverse 0.5 = some (x : EReal) ∧
      (Cauchy.mk 2 8).distribution x = 0.5 :=
  distribution_inverse_roundtrip ⟨2, 8⟩ (by norm_num) 0.5 (by norm_num) (by norm_num)

/-- C5: for every Cauchy distribution with `gamma > 0`, `distribution` is
monotone non-decreasing, every value lies in `[0, 1]`, and the limits are `0`
at `-∞` and `1` at `+∞`. -/
theorem distribution_monotone_bounds (c : Cauchy) (h : 0 < c.gamma) :
    Monotone c.distribution ∧
      (∀ x : ℝ, 0 ≤ c.distribution x ∧ c.distribution x ≤ 1) ∧
      Tendsto c.distribution atBot (nhds 0) ∧
      Tendsto c.distribution atTop (nhds 1) := by
  have hπ : (0:ℝ) < π⁻¹ := inv_pos.mpr Real.pi_pos
  have hπ0 : (π : ℝ) ≠ 0 := Real.pi_ne_zero
  have hππ : π⁻¹ * π = 1 := inv_mul_cancel₀ Real.pi_ne_zero
  refine ⟨?_, ?_, ?_, ?_⟩
  · intro a b hab
    unfold distribution
    have hd : (a - c.x_0) / c.gamma ≤ (b - c.x_0) / c.gamma :=
      (div_le_div_iff_of_pos_right h).mpr (by linarith)
    have ha := mul_le_mul_of_nonneg_left (Real.arctan_strictMono.monotone hd) hπ.le
    linarith
  · intro x
    unfold distribution
    have h1 := Real.neg_pi_div_two_lt_arctan ((x - c.x_0) / c.gamma)
    have h2 := Real.arctan_lt_pi_div_two ((x - c.x_0) / c.gamma)
    constructor
    · nlinarith [mul_lt_mul_of_pos_left h1 hπ]
    · nlinarith [mul_lt_mul_of_pos_left h2 hπ]
  · have hlin : Tendsto (fun x : ℝ => (x - c.x_0) / c.gamma) atBot atBot := by
      apply Tendsto.atBot_div_const h
      simpa [sub_eq_add_neg] using
        tendsto_atBot_add_const_right atBot (-c.x_0) (tendsto_id (α := ℝ))
    have harc : Tendsto (fun x : ℝ => Real.arctan ((x - c.x_0) / c.gamma)) atBot
        (nhds (-(π / 2))) :=
      (Real.tendsto_arctan_atBot.mono_right nhdsWithin_le_nhds).comp hlin
    have hfull : Tendsto c.distribution atBot (nhds (π⁻¹ * -(π / 2) + 0.5)) :=
      (harc.const_mul π⁻¹).add tendsto_const_nhds
    have hval : π⁻¹ * -(π / 2) + 0.5 = (0:ℝ) := by
      field_simp
      ring
    rwa [hval] at hfull
  · have hlin : Tendsto (fun x : ℝ => (x - c.x_0) / c.gamma) atTop atTop := by
      apply Tendsto.atTop_div_const h
      simpa [sub_eq_add_neg] using
        tendsto_atTop_add_const_right atTop (-c.x_0) (tendsto_id (α := ℝ))
    have harc : Tendsto (fun x : ℝ => Real.arctan ((x - c.x_0) / c.gamma)) atTop
        (nhds (π / 2)) :=
      (Real.tendsto_arctan_atTop.mono_right nhdsWithin_le_nhds).comp hlin
    have hfull : Tendsto c.distribution atTop (nhds (π⁻¹ * (π / 2) + 0.5)) :=
      (harc.const_mul π⁻¹).add tendsto_const_nhds
    have hval : π⁻¹ * (π / 2) + 0.5 = (1:ℝ) := by
      field_simp
      ring
    rwa [hval] at hfull

/-- Concrete instantiation of `distribution_monotone_bounds` at `x_0 = 2`,
`gamma = 8`. -/
theorem distribution_monotone_bounds_witness :
    Monotone (Cauchy.mk 2 8).distribution ∧
      (∀ x : ℝ, 0 ≤ (Cauchy.mk 2 8).distribution x ∧ (Cauchy.mk 2 8).distribution x ≤ 1) :=
  ⟨(distribution_monotone_bounds ⟨2, 8⟩ (by norm_num)).1,
    (distribution_monotone_bounds ⟨2, 8⟩ (by norm_num)).2.1⟩

end Cauchy

end Probability
